import Mathlib

/-!
Verification of the document ingestion and retrieval pipeline of `app.py`
(ChatPDF). The Python source is shallowly embedded: strings are lists of
characters (`String.data`), the ChromaDB client is an explicit association
list of named collections, and the external services (SentenceTransformer
embedding model, pandas CSV readers, UTF-8 decoding) are injected as explicit
function parameters, with their fallible calls returning `Option`/`Except`.
-/

set_option autoImplicit false
set_option maxRecDepth 20000

namespace ChatPDF

theorem string_data_mk (l : List Char) : (String.mk l).data = l := rfl

/-- A chunk as built by `chunk_text` (`app.py` lines 113-119): a dictionary
with keys `id`, `content`, `start_index`, `size`. -/
structure Chunk where
  id : String
  content : String
  start_index : Nat
  size : Nat
deriving Repr, DecidableEq

/-- `chunk_size = 800` (`app.py` line 106). -/
def chunk_size : Nat := 800

/-- `overlap = 160` (`app.py` line 107). -/
def overlap : Nat := 160

/-- The `while start < len(text)` loop of `chunk_text` (`app.py` lines
112-121), parameterised by the current `start` offset and `chunk_id`.
Each iteration slices `text[start : start + chunk_size]`, appends the chunk
record, increments `chunk_id` and advances `start` by `chunk_size - overlap`. -/
def chunkTextGo (text : List Char) (start : Nat) (chunk_id : Nat) : List Chunk :=
  if _h : start < text.length then
    let chunk_content := (text.drop start).take chunk_size
    { id := "chunk_" ++ toString chunk_id,
      content := String.mk chunk_content,
      start_index := start,
      size := chunk_content.length }
      :: chunkTextGo text (start + (chunk_size - overlap)) (chunk_id + 1)
  else
    []
termination_by text.length - start
decreasing_by
  have : 0 < chunk_size - overlap := by decide
  omega

/-- `chunk_text(text)` (`app.py` lines 101-122): splits `text` into
windows of 800 characters starting every 640 characters. -/
def chunk_text (text : String) : List Chunk :=
  chunkTextGo text.data 0 0

theorem chunkTextGo_eq_nil (text : List Char) (start chunk_id : Nat)
    (h : ¬ start < text.length) : chunkTextGo text start chunk_id = [] := by
  rw [chunkTextGo]
  simp [h]

theorem chunkTextGo_eq_cons (text : List Char) (start chunk_id : Nat)
    (h : start < text.length) :
    chunkTextGo text start chunk_id =
      { id := "chunk_" ++ toString chunk_id,
        content := String.mk ((text.drop start).take chunk_size),
        start_index := start,
        size := ((text.drop start).take chunk_size).length }
        :: chunkTextGo text (start + 640) (chunk_id + 1) := by
  rw [chunkTextGo]
  simp [h]
  rfl

/-- Number of loop iterations: each step removes 640 from the remaining
length, so the emitted list has `⌈(text.length - start) / 640⌉` elements. -/
theorem chunkTextGo_length (text : List Char) (start chunk_id : Nat) :
    (chunkTextGo text start chunk_id).length = (text.length - start + 639) / 640 := by
  by_cases h : start < text.length
  · rw [chunkTextGo_eq_cons text start chunk_id h]
    have ih := chunkTextGo_length text (start + 640) (chunk_id + 1)
    simp only [List.length_cons, ih]
    omega
  · rw [chunkTextGo_eq_nil text start chunk_id h]
    simp
    omega
termination_by text.length - start
decreasing_by omega

/-- The chunk count of `chunk_text` is `⌈L / 640⌉` where `L` is the text
length, i.e. `(L + 639) / 640` in natural division. -/
theorem chunk_text_length (text : String) :
    (chunk_text text).length = (text.length + 639) / 640 := by
  have h := chunkTextGo_length text.data 0 0
  simp only [Nat.sub_zero] at h
  exact h

/-- Characterization of the `i`-th emitted chunk of the loop: it starts at
`start + 640 * i`, carries id `chunk_(chunk_id + i)`, and its content is the
window `text[start + 640 * i : start + 640 * i + 800]`. -/
theorem chunkTextGo_get? (text : List Char) (start chunk_id i : Nat) :
    (chunkTextGo text start chunk_id).get? i =
      if start + 640 * i < text.length then
        some { id := "chunk_" ++ toString (chunk_id + i),
               content := String.mk ((text.drop (start + 640 * i)).take 800),
               start_index := start + 640 * i,
               size := min 800 (text.length - (start + 640 * i)) }
      else none := by
  induction i generalizing start chunk_id with
  | zero =>
    by_cases h : start < text.length
    · rw [chunkTextGo_eq_cons text start chunk_id h]
      have hsz : ((text.drop start).take chunk_size).length =
          min 800 (text.length - start) := by
        simp [List.length_take, List.length_drop, chunk_size]
      simp [h, hsz, chunk_size]
    · rw [chunkTextGo_eq_nil text start chunk_id h]
      simp [h]
  | succ i ih =>
    by_cases h : start < text.length
    · rw [chunkTextGo_eq_cons text start chunk_id h]
      have := ih (start + 640) (chunk_id + 1)
      simp only [List.get?_cons_succ, this]
      have harith : start + 640 + 640 * i = start + 640 * (i + 1) := by ring
      have hid : chunk_id + 1 + i = chunk_id + (i + 1) := by ring
      rw [harith, hid]
    · rw [chunkTextGo_eq_nil text start chunk_id h]
      have : ¬ start + 640 * (i + 1) < text.length := by omega
      simp [this]

/-- Every offset in `[start, text.length)` lies in the window of some chunk
emitted by the loop started at `start`. -/
theorem chunkTextGo_cover (text : List Char) (start chunk_id off : Nat)
    (hs : start ≤ off) (hoff : off < text.length) :
    ∃ ch ∈ chunkTextGo text start chunk_id,
      ch.start_index ≤ off ∧ off < ch.start_index + ch.size := by
  have hlt : start < text.length := Nat.lt_of_le_of_lt hs hoff
  rw [chunkTextGo_eq_cons text start chunk_id hlt]
  have hsz : ((text.drop start).take chunk_size).length =
      min 800 (text.length - start) := by
    simp [List.length_take, List.length_drop, chunk_size]
  by_cases hc : off < start + min 800 (text.length - start)
  · refine ⟨_, List.mem_cons_self _ _, hs, ?_⟩
    simpa [hsz] using hc
  · have hs' : start + 640 ≤ off := by omega
    obtain ⟨ch, hmem, h1, h2⟩ :=
      chunkTextGo_cover text (start + 640) (chunk_id + 1) off hs' hoff
    exact ⟨ch, List.mem_cons_of_mem _ hmem, h1, h2⟩
termination_by text.length - start
decreasing_by omega

/-- Characterization of the `i`-th chunk of `chunk_text`. -/
theorem chunk_text_get? (text : String) (i : Nat) :
    (chunk_text text).get? i =
      if 640 * i < text.data.length then
        some { id := "chunk_" ++ toString i,
               content := String.mk ((text.data.drop (640 * i)).take 800),
               start_index := 640 * i,
               size := min 800 (text.data.length - 640 * i) }
      else none := by
  rw [chunk_text, chunkTextGo_get?]
  norm_num

/-- C1 (amended): for text of length `L`, `chunk_text` with `chunk_size=800`
and `overlap=160` produces exactly `⌈L / 640⌉` chunks (`(L + 639) / 640`):
0 chunks for `L = 0`, 2 chunks for `L = 800`, 2 chunks for `L = 801`, and
3 chunks for `L = 1600`. -/
theorem chunk_text_count :
    (∀ text : String, (chunk_text text).length = (text.length + 639) / 640) ∧
    (chunk_text "").length = 0 ∧
    (chunk_text (String.mk (List.replicate 800 'a'))).length = 2 ∧
    (chunk_text (String.mk (List.replicate 801 'a'))).length = 2 ∧
    (chunk_text (String.mk (List.replicate 1600 'a'))).length = 3 := by
  refine ⟨chunk_text_length, ?_, ?_, ?_, ?_⟩ <;> rw [chunk_text_length] <;> decide

/-- C1 (counterexample): the claim's chunk counts are wrong on the code:
a text of length 800 yields 2 chunks, not 1 (the loop re-enters at
`start = 640 < 800`), and a text of length 1600 yields 3 chunks, not 2. -/
theorem chunk_text_count_spec_false :
    (chunk_text (String.mk (List.replicate 800 'a'))).length ≠ 1 ∧
    (chunk_text (String.mk (List.replicate 1600 'a'))).length ≠ 2 := by
  constructor <;> rw [chunk_text_length] <;> decide

/-- C4: every character offset in `[0, len(text))` lies in at least one
emitted chunk's window `[start_index, start_index + size)`, and the empty
text yields zero chunks. -/
theorem chunk_text_coverage :
    (∀ (text : String) (off : Nat), off < text.length →
      ∃ ch ∈ chunk_text text, ch.start_index ≤ off ∧ off < ch.start_index + ch.size) ∧
    chunk_text "" = [] := by
  constructor
  · intro text off hoff
    exact chunkTextGo_cover text.data 0 0 off (Nat.zero_le _) hoff
  · rw [chunk_text]
    exact chunkTextGo_eq_nil [] 0 0 (by simp)

/-- Witness for C4 at the concrete text `"ab"` and offset `0`. -/
theorem chunk_text_coverage_witness :
    (0 : Nat) < ("ab" : String).length ∧
    ∃ ch ∈ chunk_text "ab", ch.start_index ≤ 0 ∧ 0 < ch.start_index + ch.size :=
  ⟨by decide, chunk_text_coverage.1 "ab" 0 (by decide)⟩

/-- C5: chunks are emitted in increasing `start_index` order with ids
`chunk_0, chunk_1, …` assigned sequentially; two consecutive chunks share
exactly 160 characters of text — the last 160 characters of the earlier
chunk are the first 160 characters of the next — whenever the later chunk
is not the final one, and the shared window of any consecutive pair is at
most 160 characters (the final chunk may share fewer). -/
theorem chunk_text_sequential_overlap :
    (∀ (text : String) (i : Nat) (a : Chunk),
      (chunk_text text).get? i = some a →
        a.id = "chunk_" ++ toString i ∧ a.start_index = 640 * i) ∧
    (∀ (text : String) (i : Nat) (a b : Chunk),
      (chunk_text text).get? i = some a →
      (chunk_text text).get? (i + 1) = some b →
        a.start_index < b.start_index ∧
        ((chunk_text text).get? (i + 2) ≠ none →
          a.content.data.drop 640 = b.content.data.take 160 ∧
          (a.content.data.drop 640).length = 160) ∧
        min (a.start_index + a.size) (b.start_index + b.size) - b.start_index ≤ 160) := by
  constructor
  · intro text i a ha
    rw [chunk_text_get?] at ha
    by_cases h : 640 * i < text.data.length
    · rw [if_pos h] at ha
      obtain rfl := (Option.some_injective _ ha).symm
      exact ⟨rfl, rfl⟩
    · rw [if_neg h] at ha
      exact absurd ha (by simp)
  · intro text i a b ha hb
    rw [chunk_text_get?] at ha hb
    by_cases h1 : 640 * i < text.data.length
    case neg => rw [if_neg h1] at ha; exact absurd ha (by simp)
    by_cases h2 : 640 * (i + 1) < text.data.length
    case neg => rw [if_neg h2] at hb; exact absurd hb (by simp)
    rw [if_pos h1] at ha
    rw [if_pos h2] at hb
    obtain rfl := (Option.some_injective _ ha).symm
    obtain rfl := (Option.some_injective _ hb).symm
    refine ⟨by show 640 * i < 640 * (i + 1); omega, ?_, ?_⟩
    · intro h3
      rw [chunk_text_get?] at h3
      have h3' : 640 * (i + 2) < text.data.length := by
        by_contra hcon
        rw [if_neg hcon] at h3
        exact h3 rfl
      simp only [string_data_mk]
      rw [List.drop_take, List.drop_drop, List.take_take]
      have e1 : 800 - 640 = 160 := by norm_num
      have e2 : 640 * i + 640 = 640 * (i + 1) := by ring
      have e3 : min 160 800 = 160 := by norm_num
      rw [e1, e2, e3]
      refine ⟨rfl, ?_⟩
      rw [List.length_take, List.length_drop]
      omega
    · simp only
      omega

/-- Witness for C5 at a concrete 1300-character text: the first two of its
three chunks have sequential ids, increasing start indices, and share the
160-character overlap window. -/
theorem chunk_text_sequential_overlap_witness :
    ((chunk_text (String.mk (List.replicate 1300 'a'))).get? 0 =
        some ⟨"chunk_0", String.mk (List.replicate 800 'a'), 0, 800⟩ ∧
      (chunk_text (String.mk (List.replicate 1300 'a'))).get? 1 =
        some ⟨"chunk_1", String.mk (List.replicate 660 'a'), 640, 660⟩) ∧
    ((0 : Nat) < 640 ∧
      ((chunk_text (String.mk (List.replicate 1300 'a'))).get? 2 ≠ none →
        (String.mk (List.replicate 800 'a')).data.drop 640 =
          (String.mk (List.replicate 660 'a')).data.take 160 ∧
        ((String.mk (List.replicate 800 'a')).data.drop 640).length = 160) ∧
      min (0 + 800) (640 + 660) - 640 ≤ 160) := by
  have h0 : (chunk_text (String.mk (List.replicate 1300 'a'))).get? 0 =
      some ⟨"chunk_0", String.mk (List.replicate 800 'a'), 0, 800⟩ := by
    rw [chunk_text_get?]; decide
  have h1 : (chunk_text (String.mk (List.replicate 1300 'a'))).get? 1 =
      some ⟨"chunk_1", String.mk (List.replicate 660 'a'), 640, 660⟩ := by
    rw [chunk_text_get?]; decide
  exact ⟨⟨h0, h1⟩,
    chunk_text_sequential_overlap.2 (String.mk (List.replicate 1300 'a')) 0 _ _ h0 h1⟩

/-! ## The vector store model (ChromaDB client) and the indexing pipeline -/

/-- Model of an embedding vector (the numeric values themselves play no role
in the pipeline's logic, only their identity). -/
abbrev Vec := List Int

/-- The metadata stored with each indexed chunk
(`app.py` line 144): `{"chunk_index": i, "start_index": ..., "chunk_size": ...}`. -/
structure Meta where
  chunk_index : Nat
  start_index : Nat
  chunk_size : Nat
deriving Repr, DecidableEq

/-- One stored entry of a Chroma collection: id, embedding, document text and
metadata, as passed to `collection.add` (`app.py` lines 150-155). -/
structure Entry where
  id : String
  embedding : Vec
  document : String
  metadata : Meta
deriving Repr, DecidableEq

/-- The Chroma client's state: the named collections it currently holds.
`chromadb.Client()` (`app.py` line 29) starts with no collections. -/
abbrev ClientState := List (String × List Entry)

def lookupCollection : ClientState → String → Option (List Entry)
  | [], _ => none
  | (n, es) :: rest, name => if n = name then some es else lookupCollection rest name

/-- `client.delete_collection(name)` as wrapped by the `try`/`except: pass`
of `app.py` lines 134-137: removes the collection when present, does nothing
otherwise (the raised error for an absent collection is swallowed). -/
def delete_collection (st : ClientState) (name : String) : ClientState :=
  st.filter (fun p => p.1 != name)

inductive ChromaErr
  | collectionExists
  | invalidAdd
deriving Repr, DecidableEq

/-- `client.create_collection(name)` (`app.py` line 139): adds a fresh empty
collection, raising if one of that name already exists. -/
def create_collection (st : ClientState) (name : String) :
    Except ChromaErr ClientState :=
  if (lookupCollection st name).isSome then .error .collectionExists
  else .ok ((name, []) :: st)

/-- Zip of the four parallel argument lists of `collection.add` into entries. -/
def buildEntries : List String → List Vec → List String → List Meta → List Entry
  | id :: ids, v :: vs, d :: ds, m :: ms => ⟨id, v, d, m⟩ :: buildEntries ids vs ds ms
  | _, _, _, _ => []

/-- `collection.add(documents=..., embeddings=..., ids=..., metadatas=...)`
(`app.py` lines 150-155): validates that the argument lists have equal
lengths (Chroma raises otherwise, before mutating), then appends the entries
to the named collection. -/
def collectionAdd (st : ClientState) (name : String) (ids : List String)
    (embeddings : List Vec) (documents : List String) (metadatas : List Meta) :
    ClientState × Except ChromaErr Unit :=
  if ids.length = embeddings.length ∧ ids.length = documents.length ∧
      ids.length = metadatas.length then
    (st.map (fun p =>
      if p.1 = name then (p.1, p.2 ++ buildEntries ids embeddings documents metadatas)
      else p), .ok ())
  else
    (st, .error .invalidAdd)

/-- An error raised by an external service call (embedding model, Chroma). -/
structure ServiceErr where
  msg : String
deriving Repr, DecidableEq

/-- The injected external services: `EMBEDDING_MODEL.encode` (`app.py`
lines 26, 147, 163), which may fail, and the similarity score the vector
store uses to rank query results (higher means more similar). -/
structure Services where
  encode : List String → Except ServiceErr (List Vec)
  score : Vec → Vec → Int

inductive IndexErr
  | chroma (e : ChromaErr)
  | service (e : ServiceErr)
deriving Repr, DecidableEq

instance {ε α : Type} [DecidableEq ε] [DecidableEq α] : DecidableEq (Except ε α)
  | .error a, .error b =>
    if h : a = b then isTrue (congrArg Except.error h)
    else isFalse (fun hc => h (by injection hc))
  | .error _, .ok _ => isFalse (fun hc => Except.noConfusion hc)
  | .ok _, .error _ => isFalse (fun hc => Except.noConfusion hc)
  | .ok a, .ok b =>
    if h : a = b then isTrue (congrArg Except.ok h)
    else isFalse (fun hc => h (by injection hc))

/-- `create_chroma_collection(chunks)` (`app.py` lines 128-156): deletes any
previous `doc_rag` collection (errors swallowed), creates a fresh one,
prepares `texts`, `ids` and `metadatas` from the chunks, embeds the texts,
and adds everything to the collection. A Python exception part-way leaves
the client mutations made so far in place, so the model returns the final
client state alongside the success/failure result. -/
def create_chroma_collection (svc : Services) (st : ClientState)
    (chunks : List Chunk) : ClientState × Except IndexErr Unit :=
  let st1 := delete_collection st "doc_rag"
  match create_collection st1 "doc_rag" with
  | .error e => (st1, .error (.chroma e))
  | .ok st2 =>
    let texts := chunks.map (fun c => c.content)
    let ids := chunks.map (fun c => c.id)
    let metadatas := chunks.enum.map (fun ic => Meta.mk ic.1 ic.2.start_index ic.2.size)
    match svc.encode texts with
    | .error e => (st2, .error (.service e))
    | .ok embeddings =>
      match collectionAdd st2 "doc_rag" ids embeddings texts metadatas with
      | (st3, .error e) => (st3, .error (.chroma e))
      | (st3, .ok _) => (st3, .ok ())

/-- Insertion into a list sorted by descending score. -/
def insertDesc (score : Entry → Int) (e : Entry) : List Entry → List Entry
  | [] => [e]
  | x :: xs => if score x ≤ score e then e :: x :: xs else x :: insertDesc score e xs

/-- Ranking of a collection's entries by descending score. -/
def sortDesc (score : Entry → Int) : List Entry → List Entry
  | [] => []
  | x :: xs => insertDesc score x (sortDesc score xs)

/-- `collection.query(query_embeddings=..., n_results=k)`: the `k` stored
entries most similar to the query vector, best first. -/
def collectionQuery (svc : Services) (es : List Entry) (qv : Vec) (k : Nat) :
    List Entry :=
  (sortDesc (fun e => svc.score qv e.embedding) es).take k

inductive RetrieveErr
  | service (e : ServiceErr)
  | attributeError
  | notIndexed
deriving Repr, DecidableEq

/-- `retrieve_context(collection, query, k=4)` (`app.py` lines 158-164):
embeds the query, then calls `collection.query`. The `collection` argument
may be `None` (`st.session_state.collection` before indexing), in which case
`None.query` raises a plain `AttributeError` — modelled by the
`attributeError` outcome. `notIndexed` models the distinguished
`NotIndexedError` the spec postulates; the code never produces it. -/
def retrieve_context (svc : Services) (collection : Option (List Entry))
    (query : String) (k : Nat) : Except RetrieveErr (List Entry) :=
  match svc.encode [query] with
  | .error e => .error (.service e)
  | .ok qvs =>
    match collection with
    | none => .error .attributeError
    | some es => .ok (collectionQuery svc es (qvs.headD []) k)

/-- The entries `create_chroma_collection` builds from `chunks` and their
embeddings: ids, documents and metadata are the lists of `app.py`
lines 142-144, zipped positionally. -/
def indexEntries (chunks : List Chunk) (embeddings : List Vec) : List Entry :=
  buildEntries (chunks.map (fun c => c.id)) embeddings
    (chunks.map (fun c => c.content))
    (chunks.enum.map (fun ic => Meta.mk ic.1 ic.2.start_index ic.2.size))

theorem lookupCollection_delete_self (st : ClientState) (name : String) :
    lookupCollection (delete_collection st name) name = none := by
  induction st with
  | nil => rfl
  | cons p rest ih =>
    by_cases h : p.1 = name
    · simpa [delete_collection, List.filter_cons, h] using ih
    · simpa [delete_collection, List.filter_cons, h, lookupCollection] using ih

theorem buildEntries_length (ids : List String) (vs : List Vec) (ds : List String)
    (ms : List Meta) (h1 : ids.length = vs.length) (h2 : ids.length = ds.length)
    (h3 : ids.length = ms.length) :
    (buildEntries ids vs ds ms).length = ids.length := by
  induction ids generalizing vs ds ms with
  | nil => rfl
  | cons id ids ih =>
    cases vs with
    | nil => simp at h1
    | cons v vs =>
      cases ds with
      | nil => simp at h2
      | cons d ds =>
        cases ms with
        | nil => simp at h3
        | cons m ms =>
          simp only [buildEntries, List.length_cons]
          rw [ih vs ds ms (by simpa using h1) (by simpa using h2) (by simpa using h3)]

theorem buildEntries_get? (i : Nat) (ids : List String) (vs : List Vec)
    (ds : List String) (ms : List Meta) (a : String) (b : Vec) (c : String)
    (d : Meta) (ha : ids.get? i = some a) (hb : vs.get? i = some b)
    (hc : ds.get? i = some c) (hd : ms.get? i = some d) :
    (buildEntries ids vs ds ms).get? i = some ⟨a, b, c, d⟩ := by
  induction i generalizing ids vs ds ms with
  | zero =>
    cases ids with
    | nil => simp at ha
    | cons id ids =>
      cases vs with
      | nil => simp at hb
      | cons v vs =>
        cases ds with
        | nil => simp at hc
        | cons dd ds =>
          cases ms with
          | nil => simp at hd
          | cons m ms =>
            simp only [List.get?_cons_zero, Option.some_inj] at ha hb hc hd
            subst ha; subst hb; subst hc; subst hd; rfl
  | succ i ih =>
    cases ids with
    | nil => simp at ha
    | cons id ids =>
      cases vs with
      | nil => simp at hb
      | cons v vs =>
        cases ds with
        | nil => simp at hc
        | cons dd ds =>
          cases ms with
          | nil => simp at hd
          | cons m ms =>
            simp only [List.get?_cons_succ] at ha hb hc hd
            simpa [buildEntries] using ih ids vs ds ms ha hb hc hd

theorem mem_insertDesc (f : Entry → Int) (e x : Entry) (l : List Entry) :
    x ∈ insertDesc f e l ↔ x = e ∨ x ∈ l := by
  induction l with
  | nil => simp [insertDesc]
  | cons y ys ih =>
    by_cases h : f y ≤ f e
    · simp [insertDesc, h]
    · simp [insertDesc, h, ih]
      tauto

theorem mem_sortDesc (f : Entry → Int) (x : Entry) (l : List Entry) :
    x ∈ sortDesc f l ↔ x ∈ l := by
  induction l with
  | nil => simp [sortDesc]
  | cons y ys ih => simp [sortDesc, mem_insertDesc, ih]

theorem collectionQuery_subset (svc : Services) (es : List Entry) (qv : Vec)
    (k : Nat) (e : Entry) (h : e ∈ collectionQuery svc es qv k) : e ∈ es :=
  (mem_sortDesc _ e es).1 (List.take_subset _ _ h)

/-- Exhaustive description of the outcomes of `create_chroma_collection`:
whatever happens, the prior `doc_rag` collection is deleted up front; the
fresh collection then ends up empty (encode failed or `add` rejected the
argument lists) or holding exactly the entries built from the chunks. -/
theorem create_chroma_collection_cases (svc : Services) (st : ClientState)
    (chunks : List Chunk) :
    (∃ e, svc.encode (chunks.map (fun c => c.content)) = .error e ∧
      create_chroma_collection svc st chunks =
        (("doc_rag", []) :: delete_collection st "doc_rag", .error (.service e))) ∨
    (∃ embeddings, svc.encode (chunks.map (fun c => c.content)) = .ok embeddings ∧
      chunks.length ≠ embeddings.length ∧
      create_chroma_collection svc st chunks =
        (("doc_rag", []) :: delete_collection st "doc_rag",
          .error (.chroma .invalidAdd))) ∨
    (∃ embeddings, svc.encode (chunks.map (fun c => c.content)) = .ok embeddings ∧
      chunks.length = embeddings.length ∧
      create_chroma_collection svc st chunks =
        (("doc_rag", indexEntries chunks embeddings) ::
          (delete_collection st "doc_rag").map (fun p =>
            if p.1 = "doc_rag" then (p.1, p.2 ++ indexEntries chunks embeddings)
            else p),
          .ok ())) := by
  have hdel : lookupCollection (delete_collection st "doc_rag") "doc_rag" = none :=
    lookupCollection_delete_self st "doc_rag"
  have hcr : create_collection (delete_collection st "doc_rag") "doc_rag" =
      .ok (("doc_rag", []) :: delete_collection st "doc_rag") := by
    simp [create_collection, hdel]
  cases henc : svc.encode (chunks.map (fun c => c.content)) with
  | error e =>
    left
    exact ⟨e, rfl, by simp only [create_chroma_collection, hcr, henc]⟩
  | ok embeddings =>
    right
    by_cases hlen : chunks.length = embeddings.length
    · right
      refine ⟨embeddings, rfl, hlen, ?_⟩
      have hguard : (chunks.map (fun c => c.id)).length = embeddings.length ∧
          (chunks.map (fun c => c.id)).length = (chunks.map (fun c => c.content)).length ∧
          (chunks.map (fun c => c.id)).length =
            (chunks.enum.map (fun ic => Meta.mk ic.1 ic.2.start_index ic.2.size)).length := by
        simp [List.length_map, List.enum_length, hlen.symm]
      simp only [create_chroma_collection, hcr, henc, collectionAdd, if_pos hguard,
        List.map_cons, if_pos rfl, List.nil_append]
      rfl
    · left
      refine ⟨embeddings, rfl, hlen, ?_⟩
      have hguard : ¬ ((chunks.map (fun c => c.id)).length = embeddings.length ∧
          (chunks.map (fun c => c.id)).length = (chunks.map (fun c => c.content)).length ∧
          (chunks.map (fun c => c.id)).length =
            (chunks.enum.map (fun ic => Meta.mk ic.1 ic.2.start_index ic.2.size)).length) := by
        simp [List.length_map]
        omega
      simp only [create_chroma_collection, hcr, henc, collectionAdd, if_neg hguard]

/-- C2: when `create_chroma_collection(chunks)` returns successfully, the
`doc_rag` collection holds exactly the entries built from `chunks` — one
entry per chunk, in order, keyed by the chunk's id, with metadata
`{chunk_index := i, start_index, chunk_size}` for the chunk's 0-based
position `i` — and nothing from any previously existing collection;
consequently any successful retrieval against it only ever returns those
entries. -/
theorem create_chroma_collection_exact :
    ∀ (svc : Services) (st : ClientState) (chunks : List Chunk),
      (create_chroma_collection svc st chunks).2 = .ok () →
      ∃ embeddings : List Vec,
        svc.encode (chunks.map (fun c => c.content)) = .ok embeddings ∧
        lookupCollection (create_chroma_collection svc st chunks).1 "doc_rag" =
          some (indexEntries chunks embeddings) ∧
        (indexEntries chunks embeddings).length = chunks.length ∧
        (∀ (i : Nat) (c : Chunk), chunks.get? i = some c →
          ∃ v, (indexEntries chunks embeddings).get? i =
            some ⟨c.id, v, c.content, Meta.mk i c.start_index c.size⟩) ∧
        (∀ (query : String) (k : Nat) (res : List Entry),
          retrieve_context svc
            (lookupCollection (create_chroma_collection svc st chunks).1 "doc_rag")
            query k = .ok res →
          ∀ e ∈ res, e ∈ indexEntries chunks embeddings) := by
  intro svc st chunks hok
  rcases create_chroma_collection_cases svc st chunks with
    ⟨e, _, heq⟩ | ⟨embeddings, _, _, heq⟩ | ⟨embeddings, henc, hlen, heq⟩
  · rw [heq] at hok; exact absurd hok (by simp)
  · rw [heq] at hok; exact absurd hok (by simp)
  · have hlook : lookupCollection (create_chroma_collection svc st chunks).1
        "doc_rag" = some (indexEntries chunks embeddings) := by
      rw [heq]; simp [lookupCollection]
    refine ⟨embeddings, henc, hlook, ?_, ?_, ?_⟩
    · have hb := buildEntries_length (chunks.map (fun c => c.id)) embeddings
        (chunks.map (fun c => c.content))
        (chunks.enum.map (fun ic => Meta.mk ic.1 ic.2.start_index ic.2.size))
        (by simpa using hlen) (by simp) (by simp [List.enum_length])
      simpa [indexEntries] using hb
    · intro i c hc
      have hi : i < chunks.length := by
        by_contra hcon
        rw [List.get?_eq_none.2 (by omega)] at hc
        exact absurd hc (by simp)
      have hv : ∃ v, embeddings.get? i = some v := by
        cases hveq : embeddings.get? i with
        | none => exact absurd (List.get?_eq_none.1 hveq) (by omega)
        | some v => exact ⟨v, rfl⟩
      obtain ⟨v, hveq⟩ := hv
      refine ⟨v, buildEntries_get? i _ _ _ _ _ _ _ _ ?_ hveq ?_ ?_⟩
      · rw [List.get?_map, hc]; rfl
      · rw [List.get?_map, hc]; rfl
      · rw [List.get?_map, List.enum_get?, hc]; rfl
    · intro query k res hres e he
      rw [hlook] at hres
      cases hq : svc.encode [query] with
      | error err => rw [retrieve_context, hq] at hres; exact absurd hres (by simp)
      | ok qvs =>
        rw [retrieve_context, hq] at hres
        simp only [Except.ok.injEq] at hres
        subst hres
        exact collectionQuery_subset svc _ _ k e he

/-- C3 (amended): re-indexing is not failure-atomic. The previous `doc_rag`
collection is deleted before anything else; if the embedding step of the
second index fails, the operation reports the failure but the live `doc_rag`
collection is the freshly created empty one — the old entries are gone and
the new ones absent. -/
theorem create_chroma_collection_delete_first :
    ∀ (svc : Services) (st : ClientState) (chunks : List Chunk) (e : ServiceErr),
      svc.encode (chunks.map (fun c => c.content)) = .error e →
      (create_chroma_collection svc st chunks).2 = .error (.service e) ∧
      lookupCollection (create_chroma_collection svc st chunks).1 "doc_rag" =
        some [] := by
  intro svc st chunks e henc
  rcases create_chroma_collection_cases svc st chunks with
    ⟨e', henc', heq⟩ | ⟨embeddings, henc', _, heq⟩ | ⟨embeddings, henc', _, heq⟩
  · rw [henc] at henc'
    obtain rfl : e = e' := by simpa using henc'
    rw [heq]
    exact ⟨rfl, by simp [lookupCollection]⟩
  · rw [henc] at henc'; exact absurd henc' (by simp)
  · rw [henc] at henc'; exact absurd henc' (by simp)

/-- A concrete embedding service that always fails. -/
def svcFail : Services :=
  ⟨fun _ => .error ⟨"embedding model raised"⟩, fun _ _ => 0⟩

/-- A concrete embedding service that always succeeds (every text maps to
the vector `[0]`, every score is `0`). -/
def svcOk : Services :=
  ⟨fun ts => .ok (ts.map (fun _ => [0])), fun _ _ => 0⟩

/-- A concrete entry standing for the previously indexed document A. -/
def entryA : Entry := ⟨"chunk_0", [1], "alpha", ⟨0, 0, 5⟩⟩

/-- A client state holding document A's collection. -/
def stOld : ClientState := [("doc_rag", [entryA])]

/-- Chunks of the new document B. -/
def chunksB : List Chunk := [⟨"chunk_0", "beta", 0, 4⟩]

/-- C3 (counterexample): with document A indexed, re-indexing document B
through a failing embedding service reports the failure, yet document A's
collection does not "remain intact and live": `doc_rag` is now the freshly
created empty collection. -/
theorem create_chroma_collection_atomicity_false :
    (create_chroma_collection svcFail stOld chunksB).2 =
      .error (.service ⟨"embedding model raised"⟩) ∧
    lookupCollection (create_chroma_collection svcFail stOld chunksB).1 "doc_rag" =
      some [] ∧
    lookupCollection (create_chroma_collection svcFail stOld chunksB).1 "doc_rag" ≠
      some [entryA] := by
  refine ⟨?_, ?_, ?_⟩ <;> decide

/-- Witness for C3's amended theorem at the concrete failing service. -/
theorem create_chroma_collection_delete_first_witness :
    svcFail.encode (chunksB.map (fun c => c.content)) =
      .error ⟨"embedding model raised"⟩ ∧
    ((create_chroma_collection svcFail stOld chunksB).2 =
        .error (.service ⟨"embedding model raised"⟩) ∧
      lookupCollection (create_chroma_collection svcFail stOld chunksB).1
        "doc_rag" = some []) :=
  ⟨by decide, create_chroma_collection_delete_first svcFail stOld chunksB _ (by decide)⟩

/-- Witness for C2 at concrete inputs: indexing `chunksB` over a state still
holding document A's collection succeeds and the conclusions hold. -/
theorem create_chroma_collection_exact_witness :
    (create_chroma_collection svcOk stOld chunksB).2 = .ok () ∧
    ∃ embeddings : List Vec,
      svcOk.encode (chunksB.map (fun c => c.content)) = .ok embeddings ∧
      lookupCollection (create_chroma_collection svcOk stOld chunksB).1 "doc_rag" =
        some (indexEntries chunksB embeddings) ∧
      (indexEntries chunksB embeddings).length = chunksB.length ∧
      (∀ (i : Nat) (c : Chunk), chunksB.get? i = some c →
        ∃ v, (indexEntries chunksB embeddings).get? i =
          some ⟨c.id, v, c.content, Meta.mk i c.start_index c.size⟩) ∧
      (∀ (query : String) (k : Nat) (res : List Entry),
        retrieve_context svcOk
          (lookupCollection (create_chroma_collection svcOk stOld chunksB).1 "doc_rag")
          query k = .ok res →
        ∀ e ∈ res, e ∈ indexEntries chunksB embeddings) :=
  ⟨by decide, create_chroma_collection_exact svcOk stOld chunksB (by decide)⟩

/-! ## Session state: change detection and the question-section gate -/

/-- The Streamlit session state the pipeline uses (`app.py` lines 196-198):
the live collection's entries (or `none`), the processed flag, and the
stored content digest of the last uploaded file. -/
structure SessionState where
  collection : Option (List Entry)
  file_processed : Bool
  file_hash : Option String
deriving Repr, DecidableEq

/-- The change-detection block run on upload (`app.py` lines 210-215),
with `hash_file` — the SHA-256 hex digest of the uploaded bytes
(`app.py` lines 35-40) — injected as a function of the bytes. When the
digest differs from the stored one (including the initial `None`), the
stored digest is replaced and both the processed flag and the collection
are reset; otherwise nothing changes. -/
def on_upload (hash_file : List Nat → String) (s : SessionState)
    (fileBytes : List Nat) : SessionState :=
  let current_hash := hash_file fileBytes
  if s.file_hash ≠ some current_hash then
    { s with file_hash := some current_hash,
             file_processed := false,
             collection := none }
  else s

/-- The gate of the question section (`app.py` line 236):
`if st.session_state.file_processed and st.session_state.collection:`.
Retrieval is only ever invoked when this is true. -/
def question_section_enabled (s : SessionState) : Bool :=
  s.file_processed && s.collection.isSome

/-- C9: change detection is driven solely by the content digest — uploading
bytes whose digest equals the stored one leaves the session state (processed
flag, collection) untouched, while uploading bytes with any other digest
stores the new digest and resets both, forcing a full re-index. -/
theorem upload_change_detection :
    (∀ (hash_file : List Nat → String) (s : SessionState) (b : List Nat),
      s.file_hash = some (hash_file b) → on_upload hash_file s b = s) ∧
    (∀ (hash_file : List Nat → String) (s : SessionState) (b : List Nat),
      s.file_hash ≠ some (hash_file b) →
        on_upload hash_file s b =
          { collection := none, file_processed := false,
            file_hash := some (hash_file b) }) := by
  constructor
  · intro hash_file s b h
    simp [on_upload, h]
  · intro hash_file s b h
    simp [on_upload, h]

/-- Witness for C9: a digest function and concrete states exercising both
the unchanged-digest and the changed-digest branch. -/
theorem upload_change_detection_witness :
    ((⟨some [], true, some "2"⟩ : SessionState).file_hash =
        some ((fun b : List Nat => toString b.length) [7, 8]) ∧
      on_upload (fun b => toString b.length) ⟨some [], true, some "2"⟩ [7, 8] =
        ⟨some [], true, some "2"⟩) ∧
    ((⟨some [], true, some "2"⟩ : SessionState).file_hash ≠
        some ((fun b : List Nat => toString b.length) [7, 8, 9]) ∧
      on_upload (fun b => toString b.length) ⟨some [], true, some "2"⟩ [7, 8, 9] =
        { collection := none, file_processed := false,
          file_hash := some ((fun b : List Nat => toString b.length) [7, 8, 9]) }) :=
  ⟨⟨by decide, upload_change_detection.1 (fun b => toString b.length)
      ⟨some [], true, some "2"⟩ [7, 8] (by decide)⟩,
   ⟨by decide, upload_change_detection.2 (fun b => toString b.length)
      ⟨some [], true, some "2"⟩ [7, 8, 9] (by decide)⟩⟩

/-- C8 (amended): there is no distinguished `NotIndexedError` in the code.
Instead (a) the UI gate ensures retrieval is never invoked without a live
collection, (b) invoking `retrieve_context` with `None` anyway fails with a
generic `AttributeError` once the query has been embedded, and (c) no
failure of `retrieve_context` is ever the spec's distinguished not-indexed
failure. -/
theorem retrieve_before_index_behavior :
    (∀ s : SessionState, question_section_enabled s = true → s.collection ≠ none) ∧
    (∀ (svc : Services) (query : String) (k : Nat) (qvs : List Vec),
      svc.encode [query] = .ok qvs →
      retrieve_context svc none query k = .error .attributeError) ∧
    (∀ (svc : Services) (coll : Option (List Entry)) (query : String) (k : Nat)
        (r : RetrieveErr),
      retrieve_context svc coll query k = .error r → r ≠ .notIndexed) := by
  refine ⟨?_, ?_, ?_⟩
  · intro s h
    simp only [question_section_enabled, Bool.and_eq_true] at h
    obtain ⟨a, ha⟩ := Option.isSome_iff_exists.1 h.2
    simp [ha]
  · intro svc query k qvs h
    simp [retrieve_context, h]
  · intro svc coll query k r h
    cases hq : svc.encode [query] with
    | error e =>
      rw [retrieve_context, hq] at h
      simp only [Except.error.injEq] at h
      subst h
      simp
    | ok qvs =>
      cases coll with
      | none =>
        rw [retrieve_context, hq] at h
        simp only [Except.error.injEq] at h
        subst h
        simp
      | some es =>
        rw [retrieve_context, hq] at h
        exact absurd h (by simp)

/-- C8 (counterexample): calling retrieval with no live collection under a
working embedding service fails with the generic attribute error, which is
not the distinguished not-indexed failure the claim requires. -/
theorem retrieve_before_index_spec_false :
    retrieve_context svcOk none "question" 4 = .error .attributeError ∧
    (Except.error .attributeError : Except RetrieveErr (List Entry)) ≠
      .error .notIndexed := by
  exact ⟨by decide, by decide⟩

/-- Witness for C8's amended theorem at concrete inputs. -/
theorem retrieve_before_index_behavior_witness :
    (question_section_enabled ⟨some [entryA], true, none⟩ = true ∧
      (⟨some [entryA], true, none⟩ : SessionState).collection ≠ none) ∧
    (svcOk.encode ["question"] = .ok [[0]] ∧
      retrieve_context svcOk none "question" 4 = .error .attributeError) ∧
    (retrieve_context svcOk none "question" 4 = .error .attributeError ∧
      RetrieveErr.attributeError ≠ .notIndexed) :=
  ⟨⟨by decide, retrieve_before_index_behavior.1 ⟨some [entryA], true, none⟩ (by decide)⟩,
   ⟨by decide, retrieve_before_index_behavior.2.1 svcOk "question" 4 [[0]] (by decide)⟩,
   ⟨by decide, retrieve_before_index_behavior.2.2 svcOk none "question" 4
      .attributeError (by decide)⟩⟩

/-! ## Text extraction: the PDF branch -/

/-- The annotation the code actually prepends to each extracted PDF page
(`app.py` line 56): the f-string
`f"\n[Fuente: {file.name} - Página {i+1}]\n"` before the page content. -/
def codeSourceMarker (file_name : String) (n : Nat) : String :=
  "\n[Fuente: " ++ file_name ++ " - Página " ++ toString n ++ "]\n"

/-- Written from the spec's words, for comparison with the code: the
source annotation the spec asserts, `[Source: <file_name> - Page <n>]`. -/
def specSourceMarker (file_name : String) (n : Nat) : String :=
  "[Source: " ++ file_name ++ " - Page " ++ toString n ++ "]"

/-- The `pdf` branch of `extract_text_from_file` (`app.py` lines 51-56):
iterates over the pages with `enumerate`, skips any page whose
`extract_text()` is falsy (`None` or the empty string, modelled as
`Option String`), and appends the annotation plus content for the rest.
Skipped pages still advance the page counter. -/
def extract_text_pdf (file_name : String) (pages : List (Option String)) : String :=
  (pages.enum).foldl (fun text ipage =>
    match ipage.2 with
    | some content =>
      if content ≠ "" then
        text ++ codeSourceMarker file_name (ipage.1 + 1) ++ content
      else text
    | none => text) ""

/-- Structural restatement of the PDF extraction: the page list processed
front to back, counting pages from `i`. -/
def pdfPagesText (file_name : String) : Nat → List (Option String) → String
  | _, [] => ""
  | i, pg :: rest =>
    (match pg with
     | some content =>
       if content ≠ "" then codeSourceMarker file_name (i + 1) ++ content
       else ""
     | none => "") ++ pdfPagesText file_name (i + 1) rest

theorem extract_text_pdf_foldl (file_name : String) (pages : List (Option String)) :
    ∀ (n : Nat) (init : String),
      (List.enumFrom n pages).foldl (fun text ipage =>
        match ipage.2 with
        | some content =>
          if content ≠ "" then
            text ++ codeSourceMarker file_name (ipage.1 + 1) ++ content
          else text
        | none => text) init = init ++ pdfPagesText file_name n pages := by
  induction pages with
  | nil =>
    intro n init
    simp [pdfPagesText, String.append_empty]
  | cons pg rest ih =>
    intro n init
    rw [List.enumFrom_cons, List.foldl_cons]
    cases pg with
    | none =>
      rw [ih, pdfPagesText]
      rw [String.empty_append]
    | some content =>
      by_cases h : content = ""
      · subst h
        simp only [ne_eq, not_true_eq_false, if_false, ih, pdfPagesText]
        rw [String.empty_append]
      · simp only [ne_eq, h, not_false_eq_true, if_true, ih, pdfPagesText]
        rw [String.append_assoc, String.append_assoc, String.append_assoc]

/-- C6 (amended): PDF extraction processes pages in order; a page whose
extraction yields `None` or the empty string contributes nothing (but still
advances the page number); every other page contributes
`"\n[Fuente: <file_name> - Página <n>]\n"` followed by its text, with `n`
the 1-indexed page number. -/
theorem extract_text_pdf_spec :
    (∀ (file_name : String) (pages : List (Option String)),
      extract_text_pdf file_name pages = pdfPagesText file_name 0 pages) ∧
    (∀ (file_name : String) (i : Nat) (rest : List (Option String)),
      pdfPagesText file_name i (none :: rest) = pdfPagesText file_name (i + 1) rest) ∧
    (∀ (file_name : String) (i : Nat) (rest : List (Option String)),
      pdfPagesText file_name i (some "" :: rest) = pdfPagesText file_name (i + 1) rest) ∧
    (∀ (file_name : String) (i : Nat) (content : String) (rest : List (Option String)),
      content ≠ "" →
      pdfPagesText file_name i (some content :: rest) =
        codeSourceMarker file_name (i + 1) ++ content ++
          pdfPagesText file_name (i + 1) rest) := by
  refine ⟨?_, ?_, ?_, ?_⟩
  · intro file_name pages
    have h := extract_text_pdf_foldl file_name pages 0 ""
    rw [String.empty_append] at h
    exact h
  · intro file_name i rest
    rw [pdfPagesText, String.empty_append]
  · intro file_name i rest
    rw [pdfPagesText]
    simp only [ne_eq, not_true_eq_false, if_false]
    rw [String.empty_append]
  · intro file_name i content rest h
    rw [pdfPagesText]
    simp only [ne_eq, h, not_false_eq_true, if_true]

/-- Looks for `needle` at the head of `hay`. -/
def startsWithChars : List Char → List Char → Bool
  | [], _ => true
  | _ :: _, [] => false
  | a :: as, b :: bs => a = b && startsWithChars as bs

/-- Whether `needle` occurs contiguously anywhere inside `hay`. -/
def listHasSub (needle : List Char) : List Char → Bool
  | [] => needle.isEmpty
  | b :: bs => startsWithChars needle (b :: bs) || listHasSub needle bs

/-- C6 (counterexample): on a one-page PDF named `doc.pdf` with page text
`"hello"`, the code emits `"\n[Fuente: doc.pdf - Página 1]\nhello"`; the
spec's annotation `[Source: doc.pdf - Page 1]` appears nowhere in the
output, which instead carries the Spanish `[Fuente: … - Página …]` marker. -/
theorem extract_text_pdf_annotation_spec_false :
    extract_text_pdf "doc.pdf" [some "hello"] =
      "\n[Fuente: doc.pdf - Página 1]\nhello" ∧
    extract_text_pdf "doc.pdf" [some "hello"] ≠
      specSourceMarker "doc.pdf" 1 ++ "hello" ∧
    listHasSub (specSourceMarker "doc.pdf" 1).data
      (extract_text_pdf "doc.pdf" [some "hello"]).data = false ∧
    listHasSub (codeSourceMarker "doc.pdf" 1).data
      (extract_text_pdf "doc.pdf" [some "hello"]).data = true := by
  refine ⟨?_, ?_, ?_, ?_⟩ <;> decide

/-- Witness for C6's amended theorem at concrete pages: an unreadable page,
an empty page, and a real page numbered in order. -/
theorem extract_text_pdf_spec_witness :
    extract_text_pdf "doc.pdf" [none, some "", some "hello"] =
      pdfPagesText "doc.pdf" 0 [none, some "", some "hello"] ∧
    ("hello" : String) ≠ "" ∧
    pdfPagesText "doc.pdf" 2 [some "hello"] =
      codeSourceMarker "doc.pdf" 3 ++ "hello" ++ pdfPagesText "doc.pdf" 3 [] :=
  ⟨extract_text_pdf_spec.1 "doc.pdf" [none, some "", some "hello"],
   by decide,
   extract_text_pdf_spec.2.2.2 "doc.pdf" 2 "hello" [] (by decide)⟩

/-! ## Text extraction: the CSV branch -/

/-- `Modelled from the spec:` the delimiter-sniffing heuristic of Python's
`csv.Sniffer().sniff` (standard library, not part of `src/`), per the spec a
"delimiter-sniffing heuristic over the sample" that may fail to find a
usable delimiter. A candidate delimiter is usable when every line of the
sample contains the same positive number of its occurrences. -/
def delimiterUsable (sample : String) (d : Char) : Bool :=
  match sample.data.splitOn '\n' with
  | [] => false
  | l :: rest =>
    decide (0 < l.count d) && rest.all (fun l2 => l2.count d == l.count d)

/-- `Modelled from the spec:` the sniffer tries the preferred candidate
delimiters in order and returns the first usable one, or nothing (the
sniffer raises) when none is. -/
def sniffDelimiter (sample : String) : Option Char :=
  [',', '\t', ';', ' ', ':'].find? (delimiterUsable sample)

/-- The `try: dialect = csv.Sniffer().sniff(sample) … except: ';'` logic of
`app.py` lines 82-88: the sniffed delimiter, or semicolon when sniffing
fails. -/
def csvChosenDelimiter (sample : String) : Char :=
  match sniffDelimiter sample with
  | some d => d
  | none => ';'

/-- The injected CSV externals: UTF-8 decoding of raw bytes
(`bytes.decode("utf-8")`; `none` models a raised `UnicodeDecodeError`) and
the two pandas readers `pd.read_csv(..., encoding='utf-8')` and
`pd.read_csv(..., encoding='latin-1')`, each returning the rendered table
text or `none` when the call raises. -/
structure CsvEnv where
  decodeUtf8 : List Nat → Option String
  readCsvUtf8 : List Nat → Char → Option String
  readCsvLatin1 : List Nat → Char → Option String

inductive CsvErr
  | decodeError
  | pandasError
deriving Repr, DecidableEq

/-- The `csv` branch of `extract_text_from_file` (`app.py` lines 77-97):
decode a 2048-byte sample read from the start of the file (an invalid
sample raises, unguarded), choose the delimiter by sniffing with semicolon
fallback, rewind (`file.seek(0)`) and read the whole file with pandas in
UTF-8; if that raises, rewind and retry the whole file in Latin-1; a
failure of the Latin-1 read propagates. -/
def extract_text_csv (env : CsvEnv) (fileBytes : List Nat) : Except CsvErr String :=
  match env.decodeUtf8 (fileBytes.take 2048) with
  | none => .error .decodeError
  | some sample =>
    let separador_detectado := csvChosenDelimiter sample
    match env.readCsvUtf8 fileBytes separador_detectado with
    | some df => .ok df
    | none =>
      match env.readCsvLatin1 fileBytes separador_detectado with
      | some df => .ok df
      | none => .error .pandasError

/-- C7: a comma-separated sample sniffs to `,`, a semicolon-separated sample
to `;`, an unusable sample falls back to `;`; and whenever the 2048-byte
sample decodes, extraction proceeds by re-reading the whole file with the
delimiter chosen from that sample. -/
theorem csv_delimiter_detection :
    csvChosenDelimiter "a,b,c\n1,2,3" = ',' ∧
    csvChosenDelimiter "a;b;c\n1;2;3" = ';' ∧
    (∀ sample : String, sniffDelimiter sample = none →
      csvChosenDelimiter sample = ';') ∧
    (∀ (env : CsvEnv) (fileBytes : List Nat) (sample : String),
      env.decodeUtf8 (fileBytes.take 2048) = some sample →
      extract_text_csv env fileBytes =
        match env.readCsvUtf8 fileBytes (csvChosenDelimiter sample) with
        | some df => .ok df
        | none =>
          match env.readCsvLatin1 fileBytes (csvChosenDelimiter sample) with
          | some df => .ok df
          | none => .error .pandasError) := by
  refine ⟨by decide, by decide, ?_, ?_⟩
  · intro sample h
    simp [csvChosenDelimiter, h]
  · intro env fileBytes sample h
    simp only [extract_text_csv, h]

/-- C10: when the 2048-byte sample is not valid UTF-8, extraction fails with
the decode error at once — whatever the sniffing and pandas oracles would
do — and the Latin-1 retry only applies to a failure of the subsequent
full-file UTF-8 read. -/
theorem csv_sample_decode_precedence :
    (∀ (env : CsvEnv) (fileBytes : List Nat),
      env.decodeUtf8 (fileBytes.take 2048) = none →
      extract_text_csv env fileBytes = .error .decodeError) ∧
    (∀ (env : CsvEnv) (fileBytes : List Nat) (sample : String),
      env.decodeUtf8 (fileBytes.take 2048) = some sample →
      env.readCsvUtf8 fileBytes (csvChosenDelimiter sample) = none →
      extract_text_csv env fileBytes =
        match env.readCsvLatin1 fileBytes (csvChosenDelimiter sample) with
        | some df => .ok df
        | none => .error .pandasError) := by
  constructor
  · intro env fileBytes h
    simp only [extract_text_csv, h]
  · intro env fileBytes sample h hread
    simp only [extract_text_csv, h, hread]

/-- A CSV environment whose sample decoding always fails (invalid UTF-8)
while both pandas readers would succeed. -/
def csvEnvBad : CsvEnv :=
  ⟨fun _ => none, fun _ _ => some "table-utf8", fun _ _ => some "table-latin1"⟩

/-- A CSV environment with a comma-separated sample whose full-file UTF-8
read fails, so only the Latin-1 retry succeeds. -/
def csvEnvLatin : CsvEnv :=
  ⟨fun _ => some "a,b\n1,2", fun _ _ => none, fun _ _ => some "table-latin1"⟩

/-- Witness for C7 at concrete inputs: an unusable sample falls back to `;`,
and a decodable sample drives the re-read with its chosen delimiter. -/
theorem csv_delimiter_detection_witness :
    (sniffDelimiter "zzz" = none ∧ csvChosenDelimiter "zzz" = ';') ∧
    (csvEnvLatin.decodeUtf8 (([1, 2, 3] : List Nat).take 2048) = some "a,b\n1,2" ∧
      extract_text_csv csvEnvLatin [1, 2, 3] =
        match csvEnvLatin.readCsvUtf8 [1, 2, 3] (csvChosenDelimiter "a,b\n1,2") with
        | some df => .ok df
        | none =>
          match csvEnvLatin.readCsvLatin1 [1, 2, 3] (csvChosenDelimiter "a,b\n1,2") with
          | some df => .ok df
          | none => .error .pandasError) :=
  ⟨⟨by decide, csv_delimiter_detection.2.2.1 "zzz" (by decide)⟩,
   ⟨by decide, csv_delimiter_detection.2.2.2 csvEnvLatin [1, 2, 3] "a,b\n1,2" (by decide)⟩⟩

/-- Witness for C10 at concrete inputs: an undecodable sample yields the
decode error even though both readers would succeed, and a failing UTF-8
full read falls back to the Latin-1 read. -/
theorem csv_sample_decode_precedence_witness :
    (csvEnvBad.decodeUtf8 (([255] : List Nat).take 2048) = none ∧
      extract_text_csv csvEnvBad [255] = .error .decodeError) ∧
    (csvEnvLatin.decodeUtf8 (([9] : List Nat).take 2048) = some "a,b\n1,2" ∧
      csvEnvLatin.readCsvUtf8 [9] (csvChosenDelimiter "a,b\n1,2") = none ∧
      extract_text_csv csvEnvLatin [9] =
        match csvEnvLatin.readCsvLatin1 [9] (csvChosenDelimiter "a,b\n1,2") with
        | some df => .ok df
        | none => .error .pandasError) :=
  ⟨⟨by decide, csv_sample_decode_precedence.1 csvEnvBad [255] (by decide)⟩,
   ⟨by decide, by decide,
    csv_sample_decode_precedence.2 csvEnvLatin [9] "a,b\n1,2" (by decide) (by decide)⟩⟩

end ChatPDF
